import Mathlib

/-!
Verification of the Kubernetes-to-Calico conversion core of libcalico-go
(`lib/backend/k8s/resources/node.go` and `node_conversion.go`).

The Go source is shallowly embedded: Go maps become association lists with
Go's insert-or-overwrite assignment semantics, Go `nil` pointers become
`Option`, fallible code returns `Option`, and the in-place mutation that
`PodToWorkloadEndpoint` performs on its argument's label map is made
explicit by returning the post-call state of the pod.  Library helpers of
the repository that are not part of the analysed files (CIDR parsing,
`numorstring`, the workload-endpoint naming scheme) are modelled from the
specification and are marked as such in their doc comments.
-/

namespace Calico

/-! ## String helpers

Character-level building blocks used to mirror the exact strings the Go
code produces with `fmt.Sprintf` and `strings.Join`. -/

/-- The single-quote character, as a one-character string. -/
def squote : String := String.singleton (Char.ofNat 39)

/-- The opening-brace character, as a one-character string. -/
def obrace : String := String.singleton (Char.ofNat 123)

/-- The closing-brace character, as a one-character string. -/
def cbrace : String := String.singleton (Char.ofNat 125)

/-- Go's `strings.Join`: concatenate with a separator between elements. -/
def strJoin (sep : String) : List String → String
  | [] => ""
  | [x] => x
  | x :: y :: xs => x ++ sep ++ strJoin sep (y :: xs)

/-- Go's `strings.ToLower`, restricted to the ASCII range (the protocol
strings fed to it here are ASCII). -/
def strToLower (s : String) : String := String.mk (s.data.map Char.toLower)

/-- Go's `strings.HasPrefix`. -/
def strHasPre (s pre : String) : Bool := pre.data.isPrefixOf s.data

/-- Go's `strings.TrimPrefix`: drop `pre` from the front of `s` when it is
a prefix, otherwise return `s` unchanged. -/
def strTrimPre (s pre : String) : String :=
  if strHasPre s pre then String.mk (s.data.drop pre.data.length) else s

/-- Split a character list at every occurrence of the separator `c`. -/
def splitOnChar (c : Char) : List Char → List (List Char)
  | [] => [[]]
  | x :: t =>
    let r := splitOnChar c t
    if x = c then [] :: r
    else
      match r with
      | [] => [[x]]
      | h :: t2 => (x :: h) :: t2

/-- Parse a non-empty all-decimal-digit character list as a natural number. -/
def parseNatDigits (l : List Char) : Option Nat :=
  if l.isEmpty then none
  else l.foldl (fun acc c => acc.bind fun n =>
    if c.isDigit then some (n * 10 + (c.toNat - 48)) else none) (some 0)

/-- Hex digit character (lowercase) for a nibble value. -/
def hexChar (n : Nat) : Char := if n < 10 then Char.ofNat (48 + n) else Char.ofNat (87 + n)

/-- Two lowercase hex digits of a byte value. -/
def byteHex (b : Nat) : List Char := [hexChar (b / 16 % 16), hexChar (b % 16)]

/-! ## Go maps

A Go `map[string]string` is modelled as an association list; `mapInsert`
is Go's `m[k] = v` (overwrite in place, else append). -/

/-- Association-list model of `map[string]string`. -/
abbrev GoMap := List (String × String)

/-- Go map assignment `m[k] = v`. -/
def mapInsert (m : GoMap) (k v : String) : GoMap :=
  match m with
  | [] => [(k, v)]
  | (a, b) :: t => if a = k then (a, v) :: t else (a, b) :: mapInsert t k v

/-- Go map read `m[k]`, distinguishing a missing key. -/
def mapLookup (m : GoMap) (k : String) : Option String :=
  match m with
  | [] => none
  | (a, b) :: t => if a = k then some b else mapLookup t k

/-! ## String ordering

Go's `sort.Strings` orders strings by byte-wise (UTF-8) lexicographic
comparison, which coincides with code-point lexicographic order.  We
define that order on `List Char` so that it reduces in the kernel. -/

/-- Lexicographic less-or-equal on character lists by code point. -/
def listLeB : List Char → List Char → Bool
  | [], _ => true
  | _ :: _, [] => false
  | a :: as, b :: bs =>
    if a.toNat < b.toNat then true
    else if b.toNat < a.toNat then false
    else listLeB as bs

/-- Lexicographic string order used to model `sort.Strings`. -/
def strLe (a b : String) : Prop := listLeB a.data b.data = true

instance : DecidableRel strLe := fun _ _ => inferInstanceAs (Decidable (_ = true))

/-- Model of `sort.Strings`. -/
def sortStrings (l : List String) : List String := List.insertionSort strLe l

/-! ## IPv4 addresses and CIDRs

The repository's `lib/net` package (a thin wrapper over Go's `net`
package) is not among the analysed files, so its parsing functions are
modelled from the specification, restricted to IPv4: standard dotted-quad
addresses and `address/prefix-length` CIDR notation. -/

/-- An IPv4 address as four octets. -/
structure IP where
  o1 : Nat
  o2 : Nat
  o3 : Nat
  o4 : Nat
deriving DecidableEq, Repr

/-- An IPv4 network: the (masked) network address plus the prefix length. -/
structure IPNet where
  ip : IP
  prefixLen : Nat
deriving DecidableEq, Repr

/-- Dotted-quad rendering of an address (Go `net.IP.String`). -/
def IP.render (ip : IP) : String :=
  toString ip.o1 ++ "." ++ toString ip.o2 ++ "." ++ toString ip.o3 ++ "." ++ toString ip.o4

/-- The address as a 32-bit natural number. -/
def IP.toNat32 (ip : IP) : Nat := ((ip.o1 * 256 + ip.o2) * 256 + ip.o3) * 256 + ip.o4

/-- An address from a 32-bit natural number. -/
def IP.ofNat32 (n : Nat) : IP :=
  ⟨n / 16777216 % 256, n / 65536 % 256, n / 256 % 256, n % 256⟩

/-- Zero the host bits of `ip` for a prefix of length `len`. -/
def maskIP (ip : IP) (len : Nat) : IP :=
  let keep := 2 ^ (32 - len)
  IP.ofNat32 (ip.toNat32 / keep * keep)

/-- Rendering of a network in CIDR notation (Go `net.IPNet.String`). -/
def IPNet.render (n : IPNet) : String := n.ip.render ++ "/" ++ toString n.prefixLen

/-- The 32-bit netmask value of a prefix length. -/
def maskValue (len : Nat) : Nat := (4294967296 - 2 ^ (32 - len)) % 4294967296

/-- Go `net.IPMask.String()`: the mask bytes as bare lowercase hex digits
(for example the /24 mask renders as `ffffff00`, not as `24`). -/
def maskHexRender (len : Nat) : String :=
  String.mk (byteHex (maskValue len / 16777216 % 256) ++ byteHex (maskValue len / 65536 % 256) ++
    byteHex (maskValue len / 256 % 256) ++ byteHex (maskValue len % 256))

/-- Parse one decimal octet (value at most 255). -/
def parseOctet (l : List Char) : Option Nat :=
  (parseNatDigits l).bind fun n => if n ≤ 255 then some n else none

/-- Modelled from the spec: `net.ParseIP` restricted to IPv4 dotted-quad
notation. -/
def ParseIP (s : String) : Option IP :=
  match splitOnChar (Char.ofNat 46) s.data with
  | [a, b, c, d] => do
    let a ← parseOctet a
    let b ← parseOctet b
    let c ← parseOctet c
    let d ← parseOctet d
    pure ⟨a, b, c, d⟩
  | _ => none

/-- Modelled from the spec: `cnet.ParseCIDR` (Go `net.ParseCIDR`), which
accepts only `address/decimal-prefix-length` notation and returns both the
original address (host bits preserved) and the masked network. -/
def ParseCIDR (s : String) : Option (IP × IPNet) :=
  match splitOnChar (Char.ofNat 47) s.data with
  | [ipPart, lenPart] => do
    let ip ← ParseIP (String.mk ipPart)
    let len ← parseNatDigits lenPart
    if len ≤ 32 then pure (ip, ⟨maskIP ip len, len⟩) else none
  | _ => none

/-- Modelled from the spec: `cnet.ParseCIDROrIP` parses a CIDR-or-bare-IP,
mapping a bare address to its /32 network. -/
def ParseCIDROrIP (s : String) : Option (IP × IPNet) :=
  match ParseCIDR s with
  | some r => some r
  | none => (ParseIP s).map fun ip => (ip, ⟨ip, 32⟩)

/-- Modelled from the spec: `numorstring.ASNumberFromString` parses a
decimal AS number. -/
def ASNumberFromString (s : String) : Option Nat :=
  (parseNatDigits s.data).bind fun n => if n ≤ 4294967295 then some n else none

/-! ## Label selectors and the selector compiler (`k8sSelectorToCalico`) -/

/-- The operators of `metav1.LabelSelectorOperator`. -/
inductive LabelSelectorOp where
  | opIn
  | opNotIn
  | opExists
  | opDoesNotExist
deriving DecidableEq, Repr

/-- One entry of `matchExpressions`. -/
structure LabelSelectorRequirement where
  key : String
  operator : LabelSelectorOp
  values : List String
deriving DecidableEq, Repr

/-- `metav1.LabelSelector`: exact-match pairs plus ordered expressions.
The Go map `MatchLabels` is represented as an association list; its
iteration order is arbitrary, which is exactly what the determinism claim
quantifies over. -/
structure LabelSelector where
  matchLabels : List (String × String) := []
  matchExpressions : List LabelSelectorRequirement := []
deriving DecidableEq, Repr

/-- The `selectorType` constants of the source. -/
inductive SelectorType where
  | selectorNamespace
  | selectorPod
deriving DecidableEq, Repr

/-- `apiv2.LabelOrchestrator` (constant defined outside the analysed
files; its exact value does not affect any claim). -/
def labelOrchestrator : String := "projectcalico.org/orchestrator"

/-- `apiv2.LabelNamespace` (constant defined outside the analysed files). -/
def labelNamespace : String := "projectcalico.org/namespace"

/-- The clause `fmt.Sprintf("%s == 'k8s'", apiv2.LabelOrchestrator)` that
the source builds in two places. -/
def orchestratorClause : String :=
  labelOrchestrator ++ " == " ++ squote ++ "k8s" ++ squote

/-- The clause appended for one `matchExpressions` entry, per operator.
The `DoesNotExist` branch reproduces the source's
`fmt.Sprintf("! has(%s%s)", e.Key)`: the format string has two verbs but
only one argument, so Go appends its missing-argument artifact
`%!s(MISSING)` after the key. -/
def matchExpressionClause (e : LabelSelectorRequirement) : String :=
  let valueList := strJoin (squote ++ ", " ++ squote) e.values
  match e.operator with
  | .opIn => e.key ++ " in " ++ obrace ++ " " ++ squote ++ valueList ++ squote ++ " " ++ cbrace
  | .opNotIn => e.key ++ " not in " ++ obrace ++ " " ++ squote ++ valueList ++ squote ++ " " ++ cbrace
  | .opExists => "has(" ++ e.key ++ ")"
  | .opDoesNotExist => "! has(" ++ e.key ++ "%!s(MISSING)" ++ ")"

/-- `Converter.k8sSelectorToCalico`: seed with the orchestrator clause for
pod selectors, then the exact-match clauses over lexicographically sorted
keys, then the expression clauses in source order, joined with `&&`. -/
def k8sSelectorToCalico (s : LabelSelector) (selectorType : SelectorType) : String :=
  let selectors : List String :=
    if selectorType = .selectorPod then [orchestratorClause] else []
  let keys := sortStrings (s.matchLabels.map Prod.fst)
  let selectors := selectors ++ keys.map fun k =>
    k ++ " == " ++ squote ++ (mapLookup s.matchLabels k).getD "" ++ squote
  let selectors := selectors ++ s.matchExpressions.map matchExpressionClause
  strJoin " && " selectors

/-! ## Network-policy rule expansion (`k8sRuleToCalico`) -/

/-- `intstr.IntOrString`. -/
inductive IntOrStr where
  | ofInt (n : Int)
  | ofString (s : String)
deriving DecidableEq, Repr

/-- `IntOrString.String()`: decimal for the int variant, verbatim for the
string variant. -/
def IntOrStr.render : IntOrStr → String
  | .ofInt n => toString n
  | .ofString s => s

/-- `extensions.NetworkPolicyPort`; `nil` pointers become `none`.  The
protocol is the `kapiv1.Protocol` string (for example `"TCP"`). -/
structure NetworkPolicyPort where
  protocol : Option String := none
  port : Option IntOrStr := none
deriving DecidableEq, Repr

/-- `extensions.IPBlock`. -/
structure IPBlock where
  cidr : String
  except : List String := []
deriving DecidableEq, Repr

/-- `extensions.NetworkPolicyPeer`. -/
structure NetworkPolicyPeer where
  podSelector : Option LabelSelector := none
  namespaceSelector : Option LabelSelector := none
  ipBlock : Option IPBlock := none
deriving DecidableEq, Repr

/-- `numorstring.Protocol` as produced by `ProtocolFromString` (modelled
from the spec: the lower-cased name is carried onto the target
enumeration as a string value). -/
structure Protocol where
  strVal : String
deriving DecidableEq, Repr

/-- Modelled from the spec: `numorstring.ProtocolFromString`. -/
def ProtocolFromString (s : String) : Protocol := ⟨s⟩

/-- `numorstring.Port`: a literal numeric port or a symbolic named port. -/
inductive NSPort where
  | numPort (n : Nat)
  | namedPort (s : String)
deriving DecidableEq, Repr

/-- Modelled from the spec: `numorstring.PortFromString`.  Literal numeric
values become numeric ports; named ports are passed through as symbolic
ports, not resolved to numbers at this layer. -/
def PortFromString (s : String) : NSPort :=
  match parseNatDigits s.data with
  | some n => if n ≤ 65535 then .numPort n else .namedPort s
  | none => .namedPort s

/-- `apiv2.EntityRule` (the fields used by this conversion). -/
structure EntityRule where
  selector : String := ""
  namespaceSelector : String := ""
  nets : List String := []
  notNets : List String := []
  ports : List NSPort := []
deriving DecidableEq, Repr

/-- `apiv2.Rule` (the fields used by this conversion). -/
structure Rule where
  action : String := ""
  protocol : Option Protocol := none
  source : EntityRule := {}
  destination : EntityRule := {}
deriving DecidableEq, Repr

/-- The four named results of `k8sPeerToCalicoFields`; Go's zero values
are the field defaults. -/
structure PeerFields where
  selector : String := ""
  nsSelector : String := ""
  nets : List String := []
  notNets : List String := []
deriving DecidableEq, Repr

/-- The body of the port-copy loop in `k8sRuleToCalico`: copy the port,
re-wrapping the port value as its string form, and make the implicit TCP
default explicit whenever a port value is present; a supplied protocol
then overrides it. -/
def normalizePort (p : NetworkPolicyPort) : NetworkPolicyPort :=
  let port : NetworkPolicyPort :=
    match p.port with
    | some v => { port := some (.ofString v.render), protocol := some "TCP" }
    | none => {}
  match p.protocol with
  | some protval => { port with protocol := some protval }
  | none => port

/-- `Converter.k8sPortToCalico`.  In Go a port value that
`numorstring.PortFromString` rejects makes this function panic via
`log.Panicf`; the spec-modelled parser is total, so that branch has no
residual here. -/
def k8sPortToCalico (port : NetworkPolicyPort) : List NSPort :=
  match port.port with
  | some p => [PortFromString p.render]
  | none => []

/-- `Converter.k8sProtocolToCalico`. -/
def k8sProtocolToCalico (protocol : Option String) : Option Protocol :=
  match protocol with
  | some p => some (ProtocolFromString (strToLower p))
  | none => none

/-- `Converter.k8sPortToCalicoFields`. -/
def k8sPortToCalicoFields (port : Option NetworkPolicyPort) : Option Protocol × List NSPort :=
  match port with
  | none => (none, [])
  | some p => (k8sProtocolToCalico p.protocol, k8sPortToCalico p)

/-- The exception-conversion loop of `k8sPeerToCalicoFields`: on a
malformed exception CIDR the Go code logs the parse failure and returns
with the `notNets` accumulated so far. -/
def exceptNets (acc : List String) : List String → List String
  | [] => acc
  | e :: rest =>
    match ParseCIDR e with
    | none => acc
    | some (_, ipNet) => exceptNets (acc ++ [ipNet.render]) rest

/-- `Converter.k8sPeerToCalicoFields`.  The Go function has no error
result: on a malformed block CIDR it logs the failure and returns the
named results still at their zero values. -/
def k8sPeerToCalicoFields (peer : Option NetworkPolicyPeer) (ns : String) : PeerFields :=
  match peer with
  | none => {}
  | some p =>
    match p.podSelector with
    | some ps => { selector := k8sSelectorToCalico ps .selectorPod }
    | none =>
      match p.namespaceSelector with
      | some nss =>
        { selector := orchestratorClause,
          nsSelector := k8sSelectorToCalico nss .selectorNamespace }
      | none =>
        match p.ipBlock with
        | some blk =>
          match ParseCIDR blk.cidr with
          | none => {}
          | some (_, ipNet) =>
            { nets := [ipNet.render], notNets := exceptNets [] blk.except }
        | none => {}

/-- The rule built for one (port, peer) pair — the body of the nested
loops of `k8sRuleToCalico`.  Ingress rules carry the peer fields in
`source` and the ports in `destination`; egress rules carry everything in
`destination`. -/
def buildRule (port : Option NetworkPolicyPort) (peer : Option NetworkPolicyPeer)
    (ns : String) (ingress : Bool) : Rule :=
  let pc := k8sPortToCalicoFields port
  let pf := k8sPeerToCalicoFields peer ns
  if ingress then
    { action := "allow", protocol := pc.1,
      source := { selector := pf.selector, namespaceSelector := pf.nsSelector,
                  nets := pf.nets, notNets := pf.notNets },
      destination := { ports := pc.2 } }
  else
    { action := "allow", protocol := pc.1,
      destination := { ports := pc.2, selector := pf.selector,
                       namespaceSelector := pf.nsSelector,
                       nets := pf.nets, notNets := pf.notNets } }

/-- `Converter.k8sRuleToCalico`: copy the peers and the (normalized)
ports, default an empty dimension to the single `nil` element, then emit
one rule per (port, peer) pair with the ports loop outermost. -/
def k8sRuleToCalico (rPeers : List NetworkPolicyPeer) (rPorts : List NetworkPolicyPort)
    (ns : String) (ingress : Bool) : List Rule :=
  let peers : List (Option NetworkPolicyPeer) :=
    rPeers.foldl (fun acc f => acc ++ [some f]) []
  let ports : List (Option NetworkPolicyPort) :=
    rPorts.foldl (fun acc p => acc ++ [some (normalizePort p)]) []
  let peers := if peers.length = 0 then [none] else peers
  let ports := if ports.length = 0 then [none] else ports
  ports.foldl (fun rules port =>
    peers.foldl (fun rules peer => rules ++ [buildRule port peer ns ingress]) rules) []

/-- The defaulting step of `k8sRuleToCalico`: an empty dimension becomes
the single-element list holding the `nil` (unrestricted) element. -/
def defaultedList {α : Type} (l : List (Option α)) : List (Option α) :=
  if l.length = 0 then [none] else l

/-! ## The policy converter (`K8sNetworkPolicyToCalico`) -/

/-- One entry of `np.Spec.Ingress` (`NetworkPolicyIngressRule`); the Go
field `From` is a Lean keyword, hence `fromPeers`. -/
structure NetworkPolicyIngressRule where
  fromPeers : List NetworkPolicyPeer := []
  ports : List NetworkPolicyPort := []
deriving DecidableEq, Repr

/-- One entry of `np.Spec.Egress` (`NetworkPolicyEgressRule`). -/
structure NetworkPolicyEgressRule where
  toPeers : List NetworkPolicyPeer := []
  ports : List NetworkPolicyPort := []
deriving DecidableEq, Repr

/-- `extensions.NetworkPolicy` (the fields this conversion reads).
`PolicyType` is a string type in the orchestrator API, so the policy-type
list is a list of strings. -/
structure K8sNetworkPolicy where
  name : String := ""
  nsName : String := ""
  podSelector : LabelSelector := {}
  ingress : List NetworkPolicyIngressRule := []
  egress : List NetworkPolicyEgressRule := []
  policyTypes : List String := []
  resourceVersion : String := ""
deriving DecidableEq, Repr

/-- `apiv2.PolicyType`. -/
inductive PolicyType where
  | ingress
  | egress
deriving DecidableEq, Repr

/-- `apiv2.NetworkPolicySpec` (the fields this conversion writes).  The
order is the float constant `1000.0`, an exactly representable value,
modelled as an integer. -/
structure NetworkPolicySpec where
  order : Int
  selector : String
  ingressRules : List Rule
  egressRules : List Rule
  types : List PolicyType
deriving DecidableEq, Repr

/-- The `model.KVPair` returned for a converted network policy. -/
structure PolicyKVPair where
  keyName : String
  keyNamespace : String
  value : NetworkPolicySpec
  revision : String
deriving DecidableEq, Repr

/-- `K8sNetworkPolicyNamePrefix` (constant defined outside the analysed
files; its exact value does not affect any claim). -/
def k8sNetworkPolicyNamePre : String := "knp."

/-- `Converter.K8sNetworkPolicyToCalico`.  The Go function's `error`
result is always `nil`, so the model is total. -/
def K8sNetworkPolicyToCalico (np : K8sNetworkPolicy) : PolicyKVPair :=
  let policyName := k8sNetworkPolicyNamePre ++ np.name
  let order : Int := 1000
  let ingressRules :=
    np.ingress.foldl (fun acc r => acc ++ k8sRuleToCalico r.fromPeers r.ports np.nsName true) []
  let egressRules :=
    np.egress.foldl (fun acc r => acc ++ k8sRuleToCalico r.toPeers r.ports np.nsName false) []
  -- The PolicyTypes switch loop, carried as the pair (ingress, egress).
  let flags := np.policyTypes.foldl
    (fun (fl : Bool × Bool) policyType =>
      if policyType = "Ingress" then (true, fl.2)
      else if policyType = "Egress" then (fl.1, true)
      else fl)
    (false, false)
  -- When egress rules exist without the Egress type the Go code only logs
  -- a warning; nothing is added to types.
  let types : List PolicyType :=
    (if flags.1 then [.ingress] else []) ++ (if flags.2 then [.egress] else [])
  let types := if types.length = 0 then [.ingress] else types
  { keyName := policyName, keyNamespace := np.nsName,
    value := { order := order,
               selector := k8sSelectorToCalico np.podSelector .selectorPod,
               ingressRules := ingressRules, egressRules := egressRules,
               types := types },
    revision := np.resourceVersion }

/-- Stated from the spec's words, for comparison with the code: the set
of policy types derived from the source policy-type list. -/
def specDerivedTypes (pts : List String) : List PolicyType :=
  (if pts.contains "Ingress" then [.ingress] else []) ++
    (if pts.contains "Egress" then [.egress] else [])

/-! ## Namespaces and profiles -/

/-- `NamespaceProfileNamePrefix`: the source documents the profile-name
form as `kns.<ns_name>`. -/
def nsProfileNamePre : String := "kns."

/-- `NamespaceLabelPrefix` (constant defined outside the analysed files;
its exact value does not affect any claim). -/
def namespaceLabelPre : String := "pcns."

/-- `kapiv1.Namespace` (the fields this conversion reads). -/
structure K8sNamespace where
  name : String := ""
  labels : GoMap := []
  resourceVersion : String := ""
deriving DecidableEq, Repr

/-- The profile `model.KVPair` produced by `NamespaceToProfile`. -/
structure ProfileKVPair where
  keyName : String
  name : String
  ingressRules : List Rule
  egressRules : List Rule
  labelsToApply : GoMap
  revision : String
deriving DecidableEq, Repr

/-- `Converter.NamespaceToProfile`: a fresh label map with every source
key prefixed, the fixed allow rules, and the prefixed profile name. -/
def NamespaceToProfile (ns : K8sNamespace) : ProfileKVPair :=
  let labels := ns.labels.foldl (fun m kv => mapInsert m (namespaceLabelPre ++ kv.1) kv.2) []
  let name := nsProfileNamePre ++ ns.name
  { keyName := name, name := name,
    ingressRules := [{ action := "allow" }], egressRules := [{ action := "allow" }],
    labelsToApply := labels, revision := ns.resourceVersion }

/-- `Converter.ProfileNameToNamespace`: strip the namespace-profile
prefix, failing (`none`, a Go error) for names not bearing it. -/
def ProfileNameToNamespace (profileName : String) : Option String :=
  if strHasPre profileName nsProfileNamePre then
    some (strTrimPre profileName nsProfileNamePre)
  else none

/-! ## Node metadata round trip (`node_conversion.go`) -/

/-- `model.Node` (the fields this conversion reads and writes). -/
structure CalicoNode where
  felixIPv4 : Option IP := none
  bgpIPv4Addr : Option IP := none
  bgpIPv4Net : Option IPNet := none
  bgpASNumber : Option Nat := none
  labels : GoMap := []
deriving DecidableEq, Repr

/-- `kapiv1.Node` (the fields this conversion reads and writes). -/
structure K8sNode where
  name : String := ""
  annotations : GoMap := []
  labels : GoMap := []
  resourceVersion : String := ""
deriving DecidableEq, Repr

/-- The `model.KVPair` returned for a converted node. -/
structure NodeKVPair where
  hostname : String
  value : CalicoNode
  revision : String
deriving DecidableEq, Repr

/-- `K8sNodeToCalico` (`node_conversion.go` lines 27-64): read the
`projectcalico.org/IPv4Address` annotation as a CIDR, keeping the host
bits on the address fields and the masked network on the network field;
a parse failure of either annotation is returned to the caller. -/
def K8sNodeToCalico (node : K8sNode) : Option NodeKVPair :=
  let annotations := node.annotations
  let withIP : Option CalicoNode :=
    match mapLookup annotations "projectcalico.org/IPv4Address" with
    | some cidrString =>
      match ParseCIDR cidrString with
      | none => none
      | some (ip, cidr) =>
        some { felixIPv4 := some ip, bgpIPv4Addr := some ip, bgpIPv4Net := some cidr }
    | none => some {}
  withIP.bind fun calicoNode =>
    match mapLookup annotations "projectcalico.org/ASNumber" with
    | some asnString =>
      match ASNumberFromString asnString with
      | none => none
      | some asn =>
        some ⟨node.name, { calicoNode with bgpASNumber := some asn }, node.resourceVersion⟩
    | none => some ⟨node.name, calicoNode, node.resourceVersion⟩

/-- `MakeK8sNode` (`node_conversion.go` lines 67-90): write the Calico
node's fields onto the k8s node.  The IPv4-address annotation is
assembled as `BGPIPv4Addr.String() + "/" + BGPIPv4Net.Mask.String()`,
where Go's `IPMask.String()` renders the mask as bare hex digits.  The Go
code dereferences the `BGPIPv4Net` pointer unconditionally, so a node
without both BGP IPv4 fields panics; that is `none` here. -/
def MakeK8sNode (calicoNode : CalicoNode) (node : K8sNode) : Option K8sNode :=
  match calicoNode.bgpIPv4Addr, calicoNode.bgpIPv4Net with
  | some addr, some net =>
    let subnet := maskHexRender net.prefixLen
    let ipCidr := addr.render ++ "/" ++ subnet
    let node := { node with
      annotations := mapInsert node.annotations "projectcalico.org/IPv4Address" ipCidr }
    let node :=
      match calicoNode.bgpASNumber with
      | some asn => { node with
          annotations := mapInsert node.annotations "projectcalico.org/ASNumber" (toString asn) }
      | none => node
    some { node with
      labels := calicoNode.labels.foldl (fun m kv => mapInsert m kv.1 kv.2) node.labels }
  | _, _ => none

/-! ## SHA-1 and the deterministic interface name

`VethNameForWorkload` hashes the endpoint name with `crypto/sha1` and
keeps the first 11 hex characters.  SHA-1 is implemented here over `Nat`
with explicit reduction modulo 2^32. -/

/-- Rotate a 32-bit word left by `n` bits. -/
def rotl32 (x n : Nat) : Nat := ((x <<< n) % 4294967296) ||| (x >>> (32 - n))

/-- UTF-8 encoding of one character, as byte values. -/
def utf8Bytes (c : Char) : List Nat :=
  let n := c.toNat
  if n < 128 then [n]
  else if n < 2048 then [192 ||| (n >>> 6), 128 ||| (n &&& 63)]
  else if n < 65536 then
    [224 ||| (n >>> 12), 128 ||| ((n >>> 6) &&& 63), 128 ||| (n &&& 63)]
  else
    [240 ||| (n >>> 18), 128 ||| ((n >>> 12) &&& 63), 128 ||| ((n >>> 6) &&& 63),
     128 ||| (n &&& 63)]

/-- The UTF-8 bytes of a string (Go's `[]byte(s)`). -/
def strBytes (s : String) : List Nat := s.data.flatMap utf8Bytes

/-- SHA-1 compression of one 64-byte block onto the running state. -/
def sha1Block (h : Nat × Nat × Nat × Nat × Nat) (block : List Nat) :
    Nat × Nat × Nat × Nat × Nat :=
  let w16 := (List.range 16).map fun i =>
    ((block.getD (4 * i) 0) <<< 24) ||| ((block.getD (4 * i + 1) 0) <<< 16) |||
      ((block.getD (4 * i + 2) 0) <<< 8) ||| block.getD (4 * i + 3) 0
  let ws := (List.range 80).foldl
    (fun ws i =>
      if i < 16 then ws ++ [w16.getD i 0]
      else ws ++ [rotl32 (((ws.getD (i - 3) 0) ^^^ (ws.getD (i - 8) 0)) ^^^
        ((ws.getD (i - 14) 0) ^^^ (ws.getD (i - 16) 0))) 1])
    []
  let (h0, h1, h2, h3, h4) := h
  let st := (List.range 80).foldl
    (fun (st : Nat × Nat × Nat × Nat × Nat) i =>
      let (a, b, c, d, e) := st
      let f :=
        if i < 20 then (b &&& c) ||| ((b ^^^ 4294967295) &&& d)
        else if i < 40 then (b ^^^ c) ^^^ d
        else if i < 60 then ((b &&& c) ||| (b &&& d)) ||| (c &&& d)
        else (b ^^^ c) ^^^ d
      let k :=
        if i < 20 then 1518500249
        else if i < 40 then 1859775393
        else if i < 60 then 2400959708
        else 3395469782
      let temp := (rotl32 a 5 + f + e + k + ws.getD i 0) % 4294967296
      (temp, a, rotl32 b 30, c, d))
    (h0, h1, h2, h3, h4)
  let (a, b, c, d, e) := st
  ((h0 + a) % 4294967296, (h1 + b) % 4294967296, (h2 + c) % 4294967296,
   (h3 + d) % 4294967296, (h4 + e) % 4294967296)

/-- The lowercase-hex SHA-1 digest of a byte sequence. -/
def sha1Hex (msg : List Nat) : String :=
  let ml := msg.length * 8
  let padded := msg ++ [128] ++ List.replicate ((119 - msg.length % 64) % 64) 0 ++
    [ml / 72057594037927936 % 256, ml / 281474976710656 % 256, ml / 1099511627776 % 256,
     ml / 4294967296 % 256, ml / 16777216 % 256, ml / 65536 % 256, ml / 256 % 256, ml % 256]
  let hs := (List.range (padded.length / 64)).foldl
    (fun h bi => sha1Block h ((padded.drop (64 * bi)).take 64))
    (1732584193, 4023233417, 2562383102, 271733878, 3285377520)
  let (h0, h1, h2, h3, h4) := hs
  let bytes := [h0, h1, h2, h3, h4].flatMap fun w =>
    [w / 16777216 % 256, w / 65536 % 256, w / 256 % 256, w % 256]
  String.mk (bytes.flatMap byteHex)

/-- `VethNameForWorkload`: the fixed `cali` prefix plus the first 11 hex
characters of the SHA-1 digest of the workload name. -/
def VethNameForWorkload (workload : String) : String :=
  "cali" ++ String.mk ((sha1Hex (strBytes workload)).data.take 11)

/-! ## Pods and the endpoint synthesizer (`PodToWorkloadEndpoint`) -/

/-- `kapiv1.ContainerPort` (the fields this conversion reads). -/
structure ContainerPort where
  name : String := ""
  containerPort : Nat := 0
  protocol : String := ""
deriving DecidableEq, Repr

/-- `kapiv1.Container` (the fields this conversion reads). -/
structure Container where
  ports : List ContainerPort := []
deriving DecidableEq, Repr

/-- `kapiv1.Pod` (the fields this conversion reads).  The label map is
`Option GoMap` because Go distinguishes a `nil` map from an empty one. -/
structure Pod where
  name : String := ""
  nsName : String := ""
  nodeName : String := ""
  hostNetwork : Bool := false
  podIP : String := ""
  labels : Option GoMap := none
  containers : List Container := []
  resourceVersion : String := ""
deriving DecidableEq, Repr

/-- `Converter.IsScheduled`. -/
def IsScheduled (pod : Pod) : Bool := pod.nodeName ≠ ""

/-- `Converter.IsHostNetworked`. -/
def IsHostNetworked (pod : Pod) : Bool := pod.hostNetwork

/-- `Converter.HasIPAddress`. -/
def HasIPAddress (pod : Pod) : Bool := pod.podIP ≠ ""

/-- `Converter.IsValidCalicoWorkloadEndpoint`: not host networked and
scheduled to a node. -/
def IsValidCalicoWorkloadEndpoint (pod : Pod) : Bool :=
  if IsHostNetworked pod then false
  else if ¬ IsScheduled pod then false
  else true

/-- `Converter.IsReadyCalicoPod`. -/
def IsReadyCalicoPod (pod : Pod) : Bool :=
  if ¬ IsValidCalicoWorkloadEndpoint pod then false
  else if ¬ HasIPAddress pod then false
  else true

/-- Modelled from the spec: the `names` library's
`CalculateWorkloadEndpointName` joins node, the orchestrator tag `k8s`,
the pod name and the endpoint tag `eth0` with the separator, and fails
when the pod or node name is unpopulated. -/
def CalculateWorkloadEndpointName (node pod : String) : Option String :=
  if node = "" ∨ pod = "" then none
  else some (node ++ "-k8s-" ++ pod ++ "-eth0")

/-- `apiv2.EndpointPort`. -/
structure EndpointPort where
  name : String
  protocol : Protocol
  port : Nat
deriving DecidableEq, Repr

/-- `apiv2.WorkloadEndpoint` (metadata and spec fields this conversion
writes). -/
structure WorkloadEndpoint where
  name : String
  nsName : String
  labels : GoMap
  orchestrator : String
  node : String
  pod : String
  endpoint : String
  interfaceName : String
  profiles : List String
  ipNetworks : List String
  ports : List EndpointPort
deriving DecidableEq, Repr

/-- The `model.KVPair` returned for a converted pod. -/
structure WepKVPair where
  keyName : String
  keyNamespace : String
  value : WorkloadEndpoint
  revision : String
deriving DecidableEq, Repr

/-- The named-port extraction loop of `PodToWorkloadEndpoint`: container
ports with both a name and a nonzero number are kept, UDP and TCP (or the
unset default) protocols normalized, anything else skipped.  The port
number passes through Go's `uint16` conversion. -/
def extractEndpointPorts (containers : List Container) : List EndpointPort :=
  containers.foldl
    (fun acc container =>
      container.ports.foldl
        (fun acc cp =>
          if cp.name ≠ "" ∧ cp.containerPort ≠ 0 then
            if cp.protocol = "UDP" then
              acc ++ [⟨cp.name, ProtocolFromString "udp", cp.containerPort % 65536⟩]
            else if cp.protocol = "TCP" ∨ cp.protocol = "" then
              acc ++ [⟨cp.name, ProtocolFromString "tcp", cp.containerPort % 65536⟩]
            else acc
          else acc)
        acc)
    []

/-- `Converter.PodToWorkloadEndpoint`.  The Go statement
`labels := pod.Labels` aliases the pod's own map, so the two subsequent
inserts mutate the input pod whenever its label map is non-nil; the model
makes that explicit by returning the post-call pod alongside the result.
A `nil` error result is `some`. -/
def PodToWorkloadEndpoint (pod : Pod) : Pod × Option WepKVPair :=
  let profile := nsProfileNamePre ++ pod.nsName
  match CalculateWorkloadEndpointName pod.nodeName pod.name with
  | none => (pod, none)
  | some wepName =>
    let ipNetsRes : Option (List String) :=
      if HasIPAddress pod then
        match ParseCIDROrIP pod.podIP with
        | none => none
        | some (_, ipNet) => some [ipNet.render]
      else some []
    match ipNetsRes with
    | none => (pod, none)
    | some ipNets =>
      let interfaceName := VethNameForWorkload wepName
      let baseLabels := match pod.labels with
        | some m => m
        | none => []
      let labels := mapInsert (mapInsert baseLabels labelNamespace pod.nsName)
        labelOrchestrator "k8s"
      -- Go map aliasing: the inserts above ran on the pod's own map.
      let pod1 := match pod.labels with
        | some _ => { pod with labels := some labels }
        | none => pod
      (pod1, some
        { keyName := wepName, keyNamespace := pod.nsName,
          value :=
            { name := wepName, nsName := pod.nsName, labels := labels,
              orchestrator := "k8s", node := pod.nodeName, pod := pod.name,
              endpoint := "eth0", interfaceName := interfaceName,
              profiles := [profile], ipNetworks := ipNets,
              ports := extractEndpointPorts pod.containers },
          revision := pod.resourceVersion })


/-! ## Concrete inputs used by the closed theorems below -/

/-- A peer whose IP block carries an unparseable CIDR. -/
def badCidrPeer : NetworkPolicyPeer := { ipBlock := some { cidr := "bogus" } }

/-- A network policy whose single ingress block names `badCidrPeer`. -/
def npBadCidr : K8sNetworkPolicy :=
  { name := "p1", nsName := "default",
    ingress := [{ fromPeers := [badCidrPeer] }] }

/-- A network policy whose policy-type list is non-empty but holds no
recognized type. -/
def npBogusType : K8sNetworkPolicy :=
  { name := "p2", nsName := "default", policyTypes := ["Bogus"] }

/-- A pod carrying a non-nil label map. -/
def podWithLabels : Pod :=
  { name := "podA", nsName := "nsA", nodeName := "node1",
    labels := some [("app", "x")] }

/-- A pod with no assigned IP address. -/
def podNoIP : Pod :=
  { name := "podB", nsName := "nsB", nodeName := "node1" }

/-- A Calico node with a BGP IPv4 address carrying host bits and its IPv4
network. -/
def calicoNodeA : CalicoNode :=
  { bgpIPv4Addr := some ⟨10, 0, 0, 1⟩,
    bgpIPv4Net := some ⟨⟨10, 0, 0, 0⟩, 24⟩ }

/-- A bare k8s node for `MakeK8sNode` to write onto. -/
def k8sNodeA : K8sNode := { name := "node1" }

/-! # Helper lemmas -/

theorem listLeB_total (a b : List Char) : listLeB a b = true ∨ listLeB b a = true := by
  induction a generalizing b with
  | nil => left; rfl
  | cons x xs ih =>
    cases b with
    | nil => right; rfl
    | cons y ys =>
      by_cases h1 : x.toNat < y.toNat
      · left; simp [listLeB, h1]
      · by_cases h2 : y.toNat < x.toNat
        · right; simp [listLeB, h2]
        · rcases ih ys with h | h
          · left; simp [listLeB, h1, h2, h]
          · right; simp [listLeB, h1, h2, h]

theorem listLeB_trans {a b c : List Char} (h1 : listLeB a b = true)
    (h2 : listLeB b c = true) : listLeB a c = true := by
  induction a generalizing b c with
  | nil => rfl
  | cons x xs ih =>
    cases b with
    | nil => simp [listLeB] at h1
    | cons y ys =>
      cases c with
      | nil => simp [listLeB] at h2
      | cons z zs =>
        simp only [listLeB] at h1 h2 ⊢
        by_cases hxy : x.toNat < y.toNat
        · by_cases hyz : y.toNat < z.toNat
          · simp [show x.toNat < z.toNat by omega]
          · by_cases hzy : z.toNat < y.toNat
            · simp [listLeB, hyz, hzy] at h2
            · simp [show x.toNat < z.toNat by omega]
        · by_cases hyx : y.toNat < x.toNat
          · simp [hxy, hyx] at h1
          · by_cases hyz : y.toNat < z.toNat
            · simp [show x.toNat < z.toNat by omega]
            · by_cases hzy : z.toNat < y.toNat
              · simp [hyz, hzy] at h2
              · have hxz : ¬ x.toNat < z.toNat := by omega
                have hzx : ¬ z.toNat < x.toNat := by omega
                simp only [hxy, hyx, if_false, if_neg hxy, if_neg hyx] at h1
                simp only [if_neg hyz, if_neg hzy] at h2
                simp [hxz, hzx, ih h1 h2]

theorem listLeB_antisymm {a b : List Char} (h1 : listLeB a b = true)
    (h2 : listLeB b a = true) : a = b := by
  induction a generalizing b with
  | nil =>
    cases b with
    | nil => rfl
    | cons y ys => simp [listLeB] at h2
  | cons x xs ih =>
    cases b with
    | nil => simp [listLeB] at h1
    | cons y ys =>
      simp only [listLeB] at h1 h2
      by_cases hxy : x.toNat < y.toNat
      · rw [if_neg (show ¬ y.toNat < x.toNat by omega), if_pos hxy] at h2
        exact absurd h2 (by simp)
      · by_cases hyx : y.toNat < x.toNat
        · simp [hxy, hyx] at h1
        · have hx : x = y :=
            Char.ext (UInt32.ext (Nat.le_antisymm (Nat.le_of_not_lt hyx) (Nat.le_of_not_lt hxy)))
          simp only [if_neg hxy, if_neg hyx] at h1
          simp only [if_neg hyx, if_neg hxy] at h2
          rw [hx, ih h1 h2]

instance : IsTotal String strLe := ⟨fun a b => listLeB_total a.data b.data⟩

instance : IsTrans String strLe := ⟨fun _ _ _ => listLeB_trans⟩

instance : IsAntisymm String strLe :=
  ⟨fun a b h1 h2 => by
    cases a with
    | mk da => cases b with
      | mk db => exact congrArg String.mk (listLeB_antisymm h1 h2)⟩

/-- An append-one-element loop is an append of a map. -/
theorem foldl_append_eq_map {α β : Type} (f : α → β) (l : List α) (init : List β) :
    l.foldl (fun acc x => acc ++ [f x]) init = init ++ l.map f := by
  induction l generalizing init with
  | nil => simp
  | cons x xs ih => simp [List.foldl_cons, ih]

/-- An append-a-block loop is an append of a `flatMap`. -/
theorem foldl_append_eq_flatMap {α β : Type} (m : α → List β) (l : List α)
    (init : List β) :
    l.foldl (fun acc a => acc ++ m a) init = init ++ l.flatMap m := by
  induction l generalizing init with
  | nil => simp
  | cons a as ih => simp [List.foldl_cons, ih]

/-- `k8sRuleToCalico` as the Cartesian product of the defaulted port and
peer lists, ports outermost, one `buildRule` per pair. -/
theorem k8sRuleToCalico_eq_flatMap (rPeers : List NetworkPolicyPeer)
    (rPorts : List NetworkPolicyPort) (ns : String) (ingress : Bool) :
    k8sRuleToCalico rPeers rPorts ns ingress
      = (defaultedList (rPorts.map fun p => some (normalizePort p))).flatMap
          fun port => (defaultedList (rPeers.map fun f => some f)).map
            fun peer => buildRule port peer ns ingress := by
  simp only [k8sRuleToCalico, foldl_append_eq_map, List.nil_append, defaultedList]
  rw [foldl_append_eq_flatMap]
  simp

/-- The defaulted dimension has length `max 1 (length l)`. -/
theorem defaultedList_length {α : Type} (l : List (Option α)) :
    (defaultedList l).length = max 1 l.length := by
  cases l with
  | nil => simp [defaultedList]
  | cons x xs => simp [defaultedList, Nat.max_eq_right (Nat.succ_le_succ (Nat.zero_le _))]

/-- A `flatMap` whose blocks all have length `n` has length `|l| * n`. -/
theorem flatMap_const_length {α β : Type} (l : List α) (f : α → List β) (n : Nat)
    (h : ∀ a, (f a).length = n) : (l.flatMap f).length = l.length * n := by
  induction l with
  | nil => simp
  | cons a as ih => simp [List.flatMap_cons, h, ih, Nat.succ_mul, Nat.add_comm]

/-! # Claims -/

/-- C2: for an ingress-or-egress block with `p` explicit port
specifications and `q` explicit peer specifications, `k8sRuleToCalico`
returns exactly `max 1 p * max 1 q` rules — `p * q` when both dimensions
are explicit, never zero — and the rules are emitted in Cartesian-product
order with the outer loop over ports and the inner loop over peers, an
empty dimension being treated as the single-element list holding the
unrestricted (`nil`) element. -/
theorem c2_rule_expansion_product (rPeers : List NetworkPolicyPeer)
    (rPorts : List NetworkPolicyPort) (ns : String) (ingress : Bool) :
    (k8sRuleToCalico rPeers rPorts ns ingress).length
        = max 1 rPorts.length * max 1 rPeers.length ∧
    k8sRuleToCalico rPeers rPorts ns ingress
      = (defaultedList (rPorts.map fun p => some (normalizePort p))).flatMap
          fun port => (defaultedList (rPeers.map fun f => some f)).map
            fun peer => buildRule port peer ns ingress := by
  refine ⟨?_, k8sRuleToCalico_eq_flatMap ..⟩
  rw [k8sRuleToCalico_eq_flatMap,
    flatMap_const_length _ _ (max 1 rPeers.length) (fun port => by
      rw [List.length_map, defaultedList_length, List.length_map]),
    defaultedList_length, List.length_map]

/-- Looking a key up in an association list with distinct keys is
invariant under permutation of the list. -/
theorem mapLookup_perm {m₁ m₂ : GoMap} (hperm : List.Perm m₁ m₂)
    (hnd : (m₁.map Prod.fst).Nodup) (k : String) :
    mapLookup m₁ k = mapLookup m₂ k := by
  induction hperm with
  | nil => rfl
  | cons x p ih =>
    obtain ⟨a, b⟩ := x
    simp only [List.map_cons, List.nodup_cons] at hnd
    simp only [mapLookup]
    by_cases h : a = k
    · simp [h]
    · simp only [if_neg h]
      exact ih hnd.2
  | swap x y l =>
    obtain ⟨a, b⟩ := x
    obtain ⟨c, d⟩ := y
    simp only [List.map_cons, List.nodup_cons, List.mem_cons] at hnd
    have hac : c ≠ a := fun h => hnd.1 (Or.inl h)
    simp only [mapLookup]
    by_cases h1 : c = k
    · by_cases h2 : a = k
      · exact absurd (h1.trans h2.symm) hac
      · simp [h1, h2]
    · simp [h1]
  | trans p₁ p₂ ih₁ ih₂ =>
    have hnd2 := ((p₁.map Prod.fst).nodup_iff).mp hnd
    exact (ih₁ hnd).trans (ih₂ hnd2)

/-- Sorting is invariant under permutation of the input. -/
theorem sortStrings_eq_of_perm {l₁ l₂ : List String} (h : List.Perm l₁ l₂) :
    sortStrings l₁ = sortStrings l₂ :=
  List.eq_of_perm_of_sorted
    ((List.perm_insertionSort strLe l₁).trans (h.trans (List.perm_insertionSort strLe l₂).symm))
    (List.sorted_insertionSort strLe l₁) (List.sorted_insertionSort strLe l₂)

/-- C3: selector compilation is deterministic — two exact-match maps that
are permutations of one another (distinct keys), i.e. the same map with
its keys iterated in different orders, compile to byte-identical selector
strings, the keys being sorted and the expressions kept in source order. -/
theorem c3_selector_deterministic (ml₁ ml₂ : List (String × String))
    (exprs : List LabelSelectorRequirement) (st : SelectorType)
    (hperm : List.Perm ml₁ ml₂) (hnd : (ml₁.map Prod.fst).Nodup) :
    k8sSelectorToCalico ⟨ml₁, exprs⟩ st = k8sSelectorToCalico ⟨ml₂, exprs⟩ st := by
  have hkeys : sortStrings (ml₁.map Prod.fst) = sortStrings (ml₂.map Prod.fst) :=
    sortStrings_eq_of_perm (hperm.map Prod.fst)
  have hfun : (fun k => k ++ " == " ++ squote ++ (mapLookup ml₁ k).getD "" ++ squote)
      = fun k => k ++ " == " ++ squote ++ (mapLookup ml₂ k).getD "" ++ squote :=
    funext fun k => by rw [mapLookup_perm hperm hnd k]
  simp only [k8sSelectorToCalico, hkeys, hfun]

/-- Witness for C3 at a concrete two-key map given in both orders. -/
theorem c3_selector_deterministic_witness :
    k8sSelectorToCalico ⟨[("a", "1"), ("b", "2")], []⟩ .selectorNamespace
      = k8sSelectorToCalico ⟨[("b", "2"), ("a", "1")], []⟩ .selectorNamespace :=
  c3_selector_deterministic [("a", "1"), ("b", "2")] [("b", "2"), ("a", "1")] []
    .selectorNamespace (by decide) (by decide)

/-- C4 (code defect): the `In`, `NotIn` and `Exists` operators emit the
documented clauses, but `DoesNotExist` does not emit `! has(key)` with
exactly the key inside the parentheses — the source formats it with
`fmt.Sprintf("! has(%s%s)", e.Key)`, two verbs for one argument, so the
emitted clause carries Go's `%!s(MISSING)` artifact after the key. -/
theorem c4_doesnotexist_artifact :
    k8sSelectorToCalico ⟨[], [⟨"k", .opIn, ["v1", "v2"]⟩]⟩ .selectorNamespace
      = "k in " ++ obrace ++ " " ++ squote ++ "v1" ++ squote ++ ", " ++ squote ++ "v2"
          ++ squote ++ " " ++ cbrace ∧
    k8sSelectorToCalico ⟨[], [⟨"k", .opNotIn, ["v1"]⟩]⟩ .selectorNamespace
      = "k not in " ++ obrace ++ " " ++ squote ++ "v1" ++ squote ++ " " ++ cbrace ∧
    k8sSelectorToCalico ⟨[], [⟨"k", .opExists, []⟩]⟩ .selectorNamespace = "has(k)" ∧
    k8sSelectorToCalico ⟨[], [⟨"k", .opDoesNotExist, []⟩]⟩ .selectorNamespace
      = "! has(k%!s(MISSING))" ∧
    k8sSelectorToCalico ⟨[], [⟨"k", .opDoesNotExist, []⟩]⟩ .selectorNamespace
      ≠ "! has(k)" := by decide

/-- C1 is refuted at this input: the block CIDR `bogus` fails to parse,
yet `K8sNetworkPolicyToCalico` (whose Go error result is always `nil`)
returns a policy object whose expanded ingress rule is present with every
peer field empty — the failure is not surfaced to the caller, and the
peer is silently treated as unrestricted. -/
theorem c1_counterexample_swallowed_parse_failure :
    ParseCIDR "bogus" = none ∧
    (K8sNetworkPolicyToCalico npBadCidr).value.ingressRules
      = [{ action := "allow" }] := by decide

/-- C1 as amended: a peer whose block CIDR fails to parse is logged and
classified with all four output fields at their zero values (the peer
becomes unrestricted), rule expansion completes normally — the enclosing
conversion returns a policy, not an error — and an exception CIDR that
fails to parse ends the exception loop with the entries accumulated so
far. -/
theorem c1_amended_parse_failure_logged_and_swallowed (ns cidr : String)
    (exc : List String) (h : ParseCIDR cidr = none) :
    k8sPeerToCalicoFields (some { ipBlock := some { cidr := cidr, except := exc } }) ns
      = {} ∧
    k8sRuleToCalico [{ ipBlock := some { cidr := cidr, except := exc } }] [] ns true
      = [{ action := "allow" }] ∧
    ∀ acc rest, exceptNets acc (cidr :: rest) = acc := by
  have hpf : k8sPeerToCalicoFields
      (some { ipBlock := some { cidr := cidr, except := exc } }) ns = {} := by
    simp [k8sPeerToCalicoFields, h]
  refine ⟨hpf, ?_, fun acc rest => by simp [exceptNets, h]⟩
  rw [k8sRuleToCalico_eq_flatMap]
  simp [defaultedList, buildRule, k8sPortToCalicoFields, hpf]

/-- Witness for the amended C1 at the concrete malformed CIDR `bogus`. -/
theorem c1_amended_witness :
    k8sPeerToCalicoFields (some { ipBlock := some { cidr := "bogus", except := [] } })
        "default" = {} ∧
    k8sRuleToCalico [{ ipBlock := some { cidr := "bogus", except := [] } }] [] "default"
        true = [{ action := "allow" }] ∧
    exceptNets [] ["bogus"] = [] := by
  obtain ⟨h1, h2, h3⟩ :=
    c1_amended_parse_failure_logged_and_swallowed "default" "bogus" [] (by decide)
  exact ⟨h1, h2, h3 [] []⟩

/-- C5: through rule emission, a port specification with a port value but
no protocol yields rules whose protocol is explicitly TCP; a supplied
protocol overrides the default, lower-cased; and a specification with
neither port nor protocol yields rules with no protocol and an empty
destination port list. -/
theorem c5_port_normalization (p : NetworkPolicyPort) (rPeers : List NetworkPolicyPeer)
    (ns : String) (ingress : Bool) (r : Rule)
    (hr : r ∈ k8sRuleToCalico rPeers [p] ns ingress) :
    (∀ v, p.port = some v → p.protocol = none →
        r.protocol = some (ProtocolFromString "tcp")) ∧
    (∀ pr, p.protocol = some pr →
        r.protocol = some (ProtocolFromString (strToLower pr))) ∧
    (p.port = none → p.protocol = none →
        r.protocol = none ∧ r.destination.ports = []) := by
  rw [k8sRuleToCalico_eq_flatMap] at hr
  simp only [List.map_cons, List.map_nil, defaultedList, List.length_cons,
    List.length_nil, List.flatMap_cons, List.flatMap_nil, List.append_nil,
    if_neg (Nat.succ_ne_zero 0)] at hr
  obtain ⟨peer, _, rfl⟩ := List.mem_map.mp hr
  have hproto : ∀ q : Option NetworkPolicyPort,
      (buildRule q peer ns ingress).protocol = (k8sPortToCalicoFields q).1 := by
    intro q; cases ingress <;> rfl
  have hports : ∀ q : Option NetworkPolicyPort,
      (buildRule q peer ns ingress).destination.ports = (k8sPortToCalicoFields q).2 := by
    intro q; cases ingress <;> rfl
  refine ⟨?_, ?_, ?_⟩
  · intro v hv hpr
    rw [hproto]
    simp [k8sPortToCalicoFields, normalizePort, hv, hpr, k8sProtocolToCalico,
      show strToLower "TCP" = "tcp" from by decide]
  · intro pr hpr
    rw [hproto]
    cases hv : p.port <;>
      simp [k8sPortToCalicoFields, normalizePort, hv, hpr, k8sProtocolToCalico]
  · intro hv hpr
    rw [hproto, hports]
    simp [k8sPortToCalicoFields, normalizePort, hv, hpr, k8sProtocolToCalico,
      k8sPortToCalico]

/-- Witness for C5: a port `80` with no protocol gets explicit TCP. -/
theorem c5_port_normalization_witness :
    (buildRule (some (normalizePort { port := some (.ofInt 80) })) none "d" true).protocol
      = some (ProtocolFromString "tcp") :=
  (c5_port_normalization { port := some (.ofInt 80) } [] "d" true _ (by decide)).1
    (.ofInt 80) rfl rfl

/-- The PolicyTypes switch loop computes exactly the membership flags of
the two recognized type names. -/
theorem typesFoldFlags (pts : List String) (i e : Bool) :
    pts.foldl
      (fun (fl : Bool × Bool) policyType =>
        if policyType = "Ingress" then (true, fl.2)
        else if policyType = "Egress" then (fl.1, true)
        else fl)
      (i, e)
      = (i || pts.contains "Ingress", e || pts.contains "Egress") := by
  induction pts generalizing i e with
  | nil => simp [List.contains]
  | cons a as ih =>
    by_cases h1 : a = "Ingress"
    · simp [h1, ih, List.contains_cons]
    · by_cases h2 : a = "Egress"
      · simp [h1, h2, ih, List.contains_cons]
      · have h1' : ¬ ("Ingress" = a) := fun h => h1 h.symm
        have h2' : ¬ ("Egress" = a) := fun h => h2 h.symm
        simp [h1, h2, h1', h2', ih, List.contains_cons]

/-- C6 is refuted at this input: a policy-type list holding only the
unrecognized value `Bogus` is non-empty type information, its derived set
is empty, and the code still falls back to the `{Ingress}` default. -/
theorem c6_counterexample_unrecognized_type :
    npBogusType.policyTypes ≠ [] ∧
    specDerivedTypes npBogusType.policyTypes = [] ∧
    (K8sNetworkPolicyToCalico npBogusType).value.types = [.ingress] := by decide

/-- C6 as amended: the converted policy's types equal the set derived
from the recognized entries of the source policy-type list whenever that
derived set is non-empty, and default to exactly `{Ingress}` whenever it
is empty (in particular when the source supplies no type information);
the types are never empty, and egress rules never influence them — the
formula does not mention the rule lists. -/
theorem c6_amended_types (np : K8sNetworkPolicy) :
    (K8sNetworkPolicyToCalico np).value.types
      = (if specDerivedTypes np.policyTypes = [] then [.ingress]
         else specDerivedTypes np.policyTypes) ∧
    (K8sNetworkPolicyToCalico np).value.types ≠ [] := by
  have htypes : (K8sNetworkPolicyToCalico np).value.types
      = (if specDerivedTypes np.policyTypes = [] then [.ingress]
         else specDerivedTypes np.policyTypes) := by
    simp only [K8sNetworkPolicyToCalico, typesFoldFlags, Bool.false_or]
    by_cases hI : "Ingress" ∈ np.policyTypes <;>
      by_cases hE : "Egress" ∈ np.policyTypes <;>
        simp [specDerivedTypes, hI, hE, List.elem_eq_mem]
  refine ⟨htypes, ?_⟩
  rw [htypes]
  by_cases h : specDerivedTypes np.policyTypes = [] <;> simp [h]

/-- Witness for the amended C6 at a policy with no type information. -/
theorem c6_amended_types_witness :
    ((K8sNetworkPolicyToCalico { name := "p3" }).value.types
      = (if specDerivedTypes (K8sNetworkPolicy.policyTypes { name := "p3" }) = []
         then [.ingress]
         else specDerivedTypes (K8sNetworkPolicy.policyTypes { name := "p3" }))) ∧
    (K8sNetworkPolicyToCalico { name := "p3" }).value.types ≠ [] :=
  c6_amended_types { name := "p3" }

/-- C7 is refuted at this input (code defect): `PodToWorkloadEndpoint`
aliases the pod's own label map (`labels := pod.Labels`) and inserts the
two synthetic labels into it, so after the call the input pod's label map
has gained the namespace and orchestrator keys — the input is not
read-only and the returned endpoint's map is not an independent copy. -/
theorem c7_pod_labels_mutated :
    (PodToWorkloadEndpoint podWithLabels).1.labels
      = some [("app", "x"), ("projectcalico.org/namespace", "nsA"),
              ("projectcalico.org/orchestrator", "k8s")] ∧
    (PodToWorkloadEndpoint podWithLabels).1.labels ≠ podWithLabels.labels := by decide

/-- C8 is refuted at this input (code defect): `MakeK8sNode` assembles
the IPv4-address annotation as `address/Mask.String()`, and Go's
`IPMask.String()` renders the /24 mask as the bare hex digits `ffffff00`;
the resulting annotation `10.0.0.1/ffffff00` is not parseable CIDR
notation, so `K8sNodeToCalico` on the written node fails instead of
recovering the address and network. -/
theorem c8_node_roundtrip_broken :
    ((MakeK8sNode calicoNodeA k8sNodeA).map fun n =>
        mapLookup n.annotations "projectcalico.org/IPv4Address")
      = some (some "10.0.0.1/ffffff00") ∧
    (MakeK8sNode calicoNodeA k8sNodeA).bind K8sNodeToCalico = none := by decide

/-- C9: an eligible pod (scheduled and not host-networked, with a
populated name) with no assigned IP address converts successfully with an
empty `ipNetworks` list; and whenever a pod with an assigned address
converts successfully, `ipNetworks` is exactly the singleton canonical
CIDR form of that address. -/
theorem c9_pod_ip_networks (pod : Pod)
    (helig : IsValidCalicoWorkloadEndpoint pod = true) (hname : pod.name ≠ "") :
    (pod.podIP = "" →
      ∃ kvp, (PodToWorkloadEndpoint pod).2 = some kvp ∧ kvp.value.ipNetworks = []) ∧
    (∀ kvp, (PodToWorkloadEndpoint pod).2 = some kvp → pod.podIP ≠ "" →
      ∃ ipn : IP × IPNet, ParseCIDROrIP pod.podIP = some ipn ∧
        kvp.value.ipNetworks = [ipn.2.render]) := by
  have hnode : pod.nodeName ≠ "" := by
    by_contra h
    simp [IsValidCalicoWorkloadEndpoint, IsHostNetworked, IsScheduled, h] at helig
  have hcalc : CalculateWorkloadEndpointName pod.nodeName pod.name
      = some (pod.nodeName ++ "-k8s-" ++ pod.name ++ "-eth0") := by
    simp [CalculateWorkloadEndpointName, hnode, hname]
  constructor
  · intro hip
    have hhas : HasIPAddress pod = false := by simp [HasIPAddress, hip]
    simp only [PodToWorkloadEndpoint, hcalc, hhas, Bool.false_eq_true, if_false]
    exact ⟨_, rfl, rfl⟩
  · intro kvp hkvp hip
    have hhas : HasIPAddress pod = true := by simp [HasIPAddress, hip]
    rcases hp : ParseCIDROrIP pod.podIP with _ | ⟨ip, ipNet⟩
    · simp [PodToWorkloadEndpoint, hcalc, hhas, hp] at hkvp
    · refine ⟨(ip, ipNet), rfl, ?_⟩
      simp only [PodToWorkloadEndpoint, hcalc, hhas, hp, if_true] at hkvp
      rw [Option.some_inj] at hkvp
      rw [← hkvp]

/-- Witness for C9 at a concrete eligible pod with no assigned address:
the conversion result carries an empty `ipNetworks` list. -/
theorem c9_pod_ip_networks_witness :
    ((PodToWorkloadEndpoint podNoIP).2.map fun kvp => kvp.value.ipNetworks)
      = some [] := by
  obtain ⟨kvp, h1, h2⟩ :=
    (c9_pod_ip_networks podNoIP (by decide) (by decide)).1 rfl
  rw [h1]
  simp [h2]

/-- The namespace-profile prefix is recognized on every name it builds. -/
theorem strHasPre_append (p s : String) : strHasPre (p ++ s) p = true := by
  rw [strHasPre, show (p ++ s).data = p.data ++ s.data from rfl,
    List.isPrefixOf_iff_prefix]
  exact List.prefix_append p.data s.data

/-- Trimming a just-prepended prefix recovers the original string. -/
theorem strTrimPre_append (p s : String) : strTrimPre (p ++ s) p = s := by
  rw [strTrimPre, if_pos (strHasPre_append p s),
    show (p ++ s).data = p.data ++ s.data from rfl, List.drop_left]

/-- C10: `ProfileNameToNamespace` is a left inverse of the profile-naming
scheme of `NamespaceToProfile` — it recovers exactly the original
namespace name — and it fails on every string not bearing the
namespace-profile prefix. -/
theorem c10_profile_name_inverse (ns : K8sNamespace) :
    ProfileNameToNamespace (NamespaceToProfile ns).name = some ns.name ∧
    ∀ s, strHasPre s nsProfileNamePre = false → ProfileNameToNamespace s = none := by
  constructor
  · show ProfileNameToNamespace (nsProfileNamePre ++ ns.name) = some ns.name
    rw [ProfileNameToNamespace, if_pos (strHasPre_append nsProfileNamePre ns.name),
      strTrimPre_append]
  · intro s h
    simp [ProfileNameToNamespace, h]

/-- Witness for C10 at the namespace `billing` and the unprefixed string
`abc`. -/
theorem c10_profile_name_inverse_witness :
    ProfileNameToNamespace (NamespaceToProfile { name := "billing" }).name
        = some "billing" ∧
    ProfileNameToNamespace "abc" = none :=
  ⟨(c10_profile_name_inverse { name := "billing" }).1,
   (c10_profile_name_inverse { name := "billing" }).2 "abc" (by decide)⟩

end Calico
